import Mathlib

/-!
Verification development for the SSO authentication bridge (`src/sso.rs`).

The Rust module drives an OpenID-Connect authorization-code flow: it
discovers and caches the provider client, validates identity and
access/refresh tokens, caches exchanged authorization codes, consumes a
replay-protection nonce on redemption, and rolls refresh tokens.

This file gives a shallow embedding of that module.  External
collaborators (the identity provider, the nonce database, the JWT
decoder, configuration) are passed in explicitly: network responses are
oracle functions, the global `AC_CACHE` / `CLIENT_CACHE` / nonce store
become an explicit `World` record threaded through the operations, and
provider contact is recorded as an explicit event list.  Authorization
codes are single-use at the provider (spec glossary; §5 "correctness
here relies on codes being single-use at the provider"), modelled by the
`usedCodes` component of the world.
-/

namespace VaultwardenSso

/-- Claims decoded from a provider identity token (`IdTokenPayload` in
`sso.rs`): expiry, optional email and the replay nonce. -/
structure IdTokenPayload where
  exp : Int
  email : Option String
  nonce : String
deriving Repr, DecidableEq

/-- Claims decoded from an access or refresh token (`BasicTokenPayload`
in `sso.rs`): optional issued-at, optional not-before, expiry. -/
structure BasicTokenPayload where
  iat : Option Int
  nbf : Option Int
  exp : Int
deriving Repr, DecidableEq

/-- `BasicTokenPayload::nbf()` from `sso.rs`:
`self.nbf.or(self.iat).unwrap_or_else(|| Utc::now()...timestamp())`.
The current time is passed explicitly as `now`. -/
def BasicTokenPayload.nbfEff (p : BasicTokenPayload) (now : Int) : Int :=
  (p.nbf.or p.iat).getD now

/-- Signature algorithms relevant to the module (jsonwebtoken's
`Algorithm`; only the default `HS256` and the configured `RS256`
appear). -/
inductive Algorithm where
  | HS256
  | RS256
deriving Repr, DecidableEq

/-- jsonwebtoken's `Validation` restricted to the fields the module
touches: algorithm list, leeway, exp/nbf/aud validation switches,
pinned audience and issuer, and the signature-validation switch that
`insecure_disable_signature_validation` clears. -/
structure Validation where
  algorithms : List Algorithm
  leeway : Nat
  validate_exp : Bool
  validate_nbf : Bool
  validate_aud : Bool
  aud : Option (List String)
  iss : Option (List String)
  validate_signature : Bool
deriving Repr, DecidableEq

/-- `jsonwebtoken::Validation::new(alg)` (also `Validation::default()`
with `alg = HS256`): leeway 60s, exp checked, nbf not checked, audience
checked but unpinned, issuer unpinned, signature checked. -/
def Validation.new (alg : Algorithm) : Validation :=
  { algorithms := [alg]
    leeway := 60
    validate_exp := true
    validate_nbf := false
    validate_aud := true
    aud := none
    iss := none
    validate_signature := true }

/-- `Validation::set_audience`. -/
def Validation.set_audience (v : Validation) (items : List String) : Validation :=
  { v with aud := some items }

/-- `Validation::set_issuer`. -/
def Validation.set_issuer (v : Validation) (items : List String) : Validation :=
  { v with iss := some items }

/-- `Validation::insecure_disable_signature_validation`. -/
def Validation.insecure_disable_signature_validation (v : Validation) : Validation :=
  { v with validate_signature := false }

/-- jsonwebtoken's `DecodingKey`, abstractly: either built from a raw
secret byte string or parsed from an RSA PEM file content. -/
inductive DecodingKey where
  | from_secret (bytes : List Nat)
  | from_rsa_pem (content : String)
deriving Repr, DecidableEq

/-- The configuration values the module reads from `CONFIG`. -/
structure Config where
  sso_enabled : Bool
  sso_client_id : String
  sso_authority : String
  sso_scopes_vec : List String
deriving Repr, DecidableEq

/-- `insecure_validation()` from `sso.rs`: default validation with the
audience pinned to the configured client id and signature validation
disabled. -/
def insecure_validation (cfg : Config) : Validation :=
  ((Validation.new .HS256).set_audience [cfg.sso_client_id]).insecure_disable_signature_validation

/-- The `Decoding` struct of `sso.rs`: key plus the identity-token
policy, the audience-relaxed access-token policy, and the
signature-ignoring debug policy. -/
structure Decoding where
  key : DecodingKey
  id_validation : Validation
  access_validation : Validation
  debug_key : DecodingKey
  debug_validation : Validation
deriving Repr, DecidableEq

/-- `Decoding::new(key, validation)` from `sso.rs`. -/
def Decoding.new (cfg : Config) (key : DecodingKey) (validation : Validation) : Decoding :=
  { key := key
    id_validation := validation
    access_validation := { validation with validate_aud := false }
    debug_key := .from_secret []
    debug_validation := { insecure_validation cfg with validate_aud := false } }

/-- Outcome of `prepare_decoding()`: either a `Decoding` or the panic
raised when a present key file cannot be parsed as an RSA public key. -/
inductive StartupResult where
  | ok (d : Decoding)
  | panic (msg : String)
deriving Repr, DecidableEq

/-- `prepare_decoding()` from `sso.rs`.  `fileContent` is the result of
`std::fs::read(CONFIG.sso_key_filepath())` (`none` when the read
fails), and `pemParses` models whether `DecodingKey::from_rsa_pem`
succeeds on the bytes read. -/
def prepare_decoding (cfg : Config) (fileContent : Option String)
    (pemParses : String → Bool) : StartupResult :=
  if cfg.sso_enabled then
    match fileContent with
    | some content =>
      if pemParses content then
        let v := Validation.new .RS256
        let v := { v with leeway := 30, validate_exp := true, validate_nbf := true }
        let v := (v.set_audience [cfg.sso_client_id]).set_issuer [cfg.sso_authority]
        .ok (Decoding.new cfg (.from_rsa_pem content) v)
      else
        .panic "Failed to decode optional SSO public RSA Key"
    | none => .ok (Decoding.new cfg (.from_secret []) (insecure_validation cfg))
  else .ok (Decoding.new cfg (.from_secret []) (insecure_validation cfg))

/-- `AuthenticatedUser` from `sso.rs`: the durable result of one code
exchange, including the secret access and refresh tokens. -/
structure AuthenticatedUser where
  nonce : String
  refresh_token : Option String
  access_token : String
  email : String
  user_name : Option String
deriving Repr, DecidableEq

/-- `UserInformation` from `sso.rs`: the public subset of
`AuthenticatedUser` exposed before 2FA is confirmed. -/
structure UserInformation where
  email : String
  user_name : Option String
deriving Repr, DecidableEq

/-- The discovered OIDC client (`CoreClient`), abstract: only its
identity matters to the module. -/
structure CoreClient where
  id : Nat
deriving Repr, DecidableEq

/-- The userinfo-endpoint claims the module reads
(`CoreUserInfoClaims`). -/
structure CoreUserInfoClaims where
  email : Option String
  preferred_username : Option String
deriving Repr, DecidableEq

/-- A successful token-endpoint response for a code exchange: access
token secret, optional refresh token secret, and the decoded identity
token.  `id_token = none` models both an absent `id_token` field and
one that `decode_id_token` rejects (both make `exchange_code` fail). -/
structure ProviderTokenResponse where
  access_token : String
  refresh_token : Option String
  id_token : Option IdTokenPayload
deriving Repr, DecidableEq

/-- Provider-side outcome for exchanging a fresh authorization code:
token-endpoint response (`none` = exchange fails), whether the
userinfo endpoint can be built from provider metadata, and the
userinfo response (`none` = request fails). -/
structure ExchangeOutcome where
  token_response : Option ProviderTokenResponse
  user_info_endpoint : Bool
  userinfo : Option CoreUserInfoClaims
deriving Repr, DecidableEq

/-- The external environment: the outcome of `get_client()` (provider
discovery) and the provider behaviour for each fresh code. -/
structure Env where
  discovery : Except String CoreClient
  provider : String → ExchangeOutcome

/-- The module's mutable state: `AC_CACHE` (most recent insertion for a
key wins), the external nonce store (set of stored nonce values),
`CLIENT_CACHE`, and the set of authorization codes already consumed at
the provider (codes are single-use at the provider, spec §5). -/
structure World where
  acCache : List (String × AuthenticatedUser)
  nonceStore : List String
  clientCache : Option CoreClient
  usedCodes : List String
deriving Repr, DecidableEq

/-- Observable side effects: provider contact and nonce deletion. -/
inductive Event where
  | discoveryRequest
  | tokenExchangeRequest (code : String)
  | userinfoRequest
  | nonceDelete (nonce : String)
deriving Repr, DecidableEq

/-- Result of one operation: its return value, the new world, and the
events it performed. -/
structure StepOut (α : Type) where
  result : Except String α
  world : World
  events : List Event

/-- `AC_CACHE.get(code)`. -/
def acLookup (cache : List (String × AuthenticatedUser)) (code : String) :
    Option AuthenticatedUser :=
  match cache with
  | [] => none
  | (k, v) :: rest => if k = code then some v else acLookup rest code

/-- `AC_CACHE.invalidate(code)`. -/
def acRemove : List (String × AuthenticatedUser) → String →
    List (String × AuthenticatedUser)
  | [], _ => []
  | (k, v) :: rest, code =>
    if k = code then acRemove rest code else (k, v) :: acRemove rest code

/-- `cached_client()` from `sso.rs`: return the cached client if
present, otherwise run `get_client()` (discovery) and cache the client
only on success. -/
def cached_client (env : Env) (w : World) : StepOut CoreClient :=
  match w.clientCache with
  | some client => ⟨.ok client, w, []⟩
  | none =>
    match env.discovery with
    | .error e => ⟨.error e, w, [.discoveryRequest]⟩
    | .ok client => ⟨.ok client, { w with clientCache := some client }, [.discoveryRequest]⟩

/-- The email resolution of `exchange_code` (`sso.rs` lines 262-268):
the identity token's email claim when present, else the userinfo
email. -/
def resolve_email (id_token : IdTokenPayload) (user_info : CoreUserInfoClaims) :
    Option String :=
  match id_token.email with
  | some email => some email
  | none => user_info.email

/-- `exchange_code(code)` from `sso.rs`.  On a cache hit the cached
identity's public subset is returned at once; on a miss the code is
exchanged at the token endpoint (single-use: a code already consumed is
rejected by the provider), userinfo is fetched, the identity token is
decoded, the email is resolved (identity token first, else userinfo),
and the full identity is cached under the code. -/
def exchange_code (env : Env) (code : String) (w : World) : StepOut UserInformation :=
  match acLookup w.acCache code with
  | some authenticated_user =>
    ⟨.ok { email := authenticated_user.email, user_name := authenticated_user.user_name }, w, []⟩
  | none =>
    match cached_client env w with
    | ⟨.error e, w1, evs⟩ => ⟨.error e, w1, evs⟩
    | ⟨.ok _client, w1, evs⟩ =>
      let evs := evs ++ [.tokenExchangeRequest code]
      if code ∈ w1.usedCodes then
        ⟨.error "Failed to contact token endpoint", w1, evs⟩
      else
        match (env.provider code).token_response with
        | none => ⟨.error "Failed to contact token endpoint", w1, evs⟩
        | some token_response =>
          let w2 : World := { w1 with usedCodes := code :: w1.usedCodes }
          if (env.provider code).user_info_endpoint = false then
            ⟨.error "No user_info endpoint", w2, evs⟩
          else
            let evs := evs ++ [.userinfoRequest]
            match (env.provider code).userinfo with
            | none => ⟨.error "Request to user_info endpoint failed", w2, evs⟩
            | some user_info =>
              match token_response.id_token with
              | none => ⟨.error "Could not decode id token", w2, evs⟩
              | some id_token =>
                match resolve_email id_token user_info with
                | none => ⟨.error "Neither id token nor userinfo contained an email", w2, evs⟩
                | some email =>
                  let user_name := user_info.preferred_username
                  let authenticated_user : AuthenticatedUser :=
                    { nonce := id_token.nonce
                      refresh_token := token_response.refresh_token
                      access_token := token_response.access_token
                      email := email
                      user_name := user_name }
                  ⟨.ok { email := email, user_name := user_name },
                    { w2 with acCache := (code, authenticated_user) :: w2.acCache }, evs⟩

/-- `redeem(code, conn)` from `sso.rs`: on a cache hit the entry is
invalidated at once, then the nonce recorded in the identity is looked
up in the nonce store and deleted.  `deleteOk` models whether the
database delete succeeds. -/
def redeem (code : String) (deleteOk : Bool) (w : World) : StepOut AuthenticatedUser :=
  match acLookup w.acCache code with
  | none => ⟨.error "Failed to retrieve user info from sso cache", w, []⟩
  | some au =>
    if au.nonce ∈ w.nonceStore then
      if deleteOk then
        ⟨.ok au,
          { w with acCache := acRemove w.acCache code,
                   nonceStore := w.nonceStore.erase au.nonce },
          [.nonceDelete au.nonce]⟩
      else
        ⟨.error "Failed to delete nonce", { w with acCache := acRemove w.acCache code }, []⟩
    else
      ⟨.error "Failed to retrive nonce from db",
        { w with acCache := acRemove w.acCache code }, []⟩

/-- Modelled from the spec: the authentication-method tag of the
application's session layer (`crate::auth::AuthMethod`, defined outside
this module); only the SSO tag is used here. -/
inductive AuthMethod where
  | Sso
deriving Repr, DecidableEq

/-- Modelled from the spec: the scope list an authentication method
binds into session claims (`auth::AuthMethodScope::scope_vec`, defined
outside this module); its value is opaque to this module. -/
def AuthMethod.scope_vec : AuthMethod → List String
  | .Sso => ["api offline_access"]

/-- Modelled from the spec: the application's login-token issuer string
(`auth::JWT_LOGIN_ISSUER`, defined outside this module); its value is
opaque to this module. -/
def JWT_LOGIN_ISSUER : String := "app-login-issuer"

/-- The device fields this module reads (`device.refresh_token`). -/
structure Device where
  refresh_token : String
deriving Repr, DecidableEq

/-- The application user, opaque to this module. -/
structure User where
  uuid : String
deriving Repr, DecidableEq

/-- Modelled from the spec: `auth::RefreshJwtClaims` (defined outside
this module), with exactly the fields of the struct literal built in
`create_auth_tokens`. -/
structure RefreshJwtClaims where
  nbf : Int
  exp : Int
  iss : String
  sub : AuthMethod
  device_token : String
  refresh_token : Option String
deriving Repr, DecidableEq

/-- Modelled from the spec: `auth::LoginJwtClaims::new(device, user,
nbf, exp, scope)` is an external constructor; modelled as the record of
its arguments. -/
structure LoginJwtClaims where
  device : Device
  user : User
  nbf : Int
  exp : Int
  scope : List String
deriving Repr, DecidableEq

/-- `auth::LoginJwtClaims::new`, as used by `create_auth_tokens`. -/
def LoginJwtClaims.new (device : Device) (user : User) (nbf exp : Int)
    (scope : List String) : LoginJwtClaims :=
  ⟨device, user, nbf, exp, scope⟩

/-- `auth::AuthTokens`: the pair returned by `create_auth_tokens`. -/
structure AuthTokens where
  refresh_claims : Option RefreshJwtClaims
  access_claims : LoginJwtClaims
deriving Repr, DecidableEq

/-- `create_auth_tokens` from `sso.rs`.  `decode_basic` stands for
`SSO_JWT_VALIDATION.decode_basic_token` (signature checking is
delegated to the jsonwebtoken collaborator), `now` for `Utc::now()`
and `default_refresh_validity` for `auth::DEFAULT_REFRESH_VALIDITY`
in seconds. -/
def create_auth_tokens (decode_basic : String → Except String BasicTokenPayload)
    (now default_refresh_validity : Int) (device : Device) (user : User)
    (refresh_token : Option String) (access_token : String) :
    Except String AuthTokens :=
  let refresh_claims := refresh_token.map fun rt =>
    let p : Int × Int :=
      match decode_basic rt with
      | .error _ => (now, now + default_refresh_validity)
      | .ok refresh_payload => (refresh_payload.nbfEff now, refresh_payload.exp)
    { nbf := p.1
      exp := p.2
      iss := JWT_LOGIN_ISSUER
      sub := AuthMethod.Sso
      device_token := device.refresh_token
      refresh_token := some rt : RefreshJwtClaims }
  match decode_basic access_token with
  | .error e => .error e
  | .ok access_payload =>
    .ok { refresh_claims := refresh_claims
          access_claims := LoginJwtClaims.new device user (access_payload.nbfEff now)
            access_payload.exp AuthMethod.Sso.scope_vec }

/-- A refresh-grant response from the provider's token endpoint:
access token and optional rotated refresh token. -/
structure RefreshTokenResponse where
  access_token : String
  refresh_token : Option String
deriving Repr, DecidableEq

/-- `exchange_refresh_token` from `sso.rs`.  `client_result` stands for
the outcome of `cached_client()` and `provider_refresh` for the
provider's refresh-grant endpoint. -/
def exchange_refresh_token (decode_basic : String → Except String BasicTokenPayload)
    (now default_refresh_validity : Int)
    (client_result : Except String CoreClient)
    (provider_refresh : String → Except String RefreshTokenResponse)
    (device : Device) (user : User) (refresh_claims : RefreshJwtClaims) :
    Except String AuthTokens :=
  match refresh_claims.refresh_token with
  | none => .error "Impossible to retrieve new access token, refresh_token is missing"
  | some refresh_token =>
    match client_result with
    | .error e => .error e
    | .ok _client =>
      match provider_refresh refresh_token with
      | .error err => .error ("Request to exchange_refresh_token endpoint failed: " ++ err)
      | .ok token_response =>
        let rolled_refresh_token := token_response.refresh_token.getD refresh_token
        create_auth_tokens decode_basic now default_refresh_validity device user
          (some rolled_refresh_token) token_response.access_token

/-- Example basic-token decoder: accepts one token string. -/
def decodeEx : String → Except String BasicTokenPayload :=
  fun t => if t = "goodtok" then .ok ⟨some 5, some 7, 100⟩ else .error "bad token"

/-- Example device. -/
def devEx : Device := ⟨"devtok"⟩

/-- Example user. -/
def usrEx : User := ⟨"u1"⟩

/-- Example refresh-grant endpoint: always succeeds without rotating
the refresh token. -/
def provRefEx : String → Except String RefreshTokenResponse :=
  fun _ => .ok ⟨"goodtok", none⟩

/-- Example stored refresh claims carrying a provider refresh token. -/
def rcEx : RefreshJwtClaims := ⟨0, 0, "iss0", .Sso, "devtok", some "oldrt"⟩

/-- One call in a sequence of flow operations (the lifecycle claims
quantify over sequences of `exchange_code` and `redeem` calls).  A
redeem carries the oracle for whether the database delete would
succeed. -/
inductive Op where
  | exchange (code : String)
  | redeem (code : String) (deleteOk : Bool)
deriving Repr, DecidableEq

/-- Execute one operation, keeping the world and the events. -/
def step (env : Env) (w : World) : Op → World × List Event
  | .exchange c => ((exchange_code env c w).world, (exchange_code env c w).events)
  | .redeem c deleteOk => ((redeem c deleteOk w).world, (redeem c deleteOk w).events)

/-- Execute a sequence of operations, concatenating their events. -/
def run (env : Env) (w : World) : List Op → World × List Event
  | [] => (w, [])
  | op :: ops =>
    ((run env (step env w op).1 ops).1,
      (step env w op).2 ++ (run env (step env w op).1 ops).2)

/-- Invariant of a consumed code: absent from the code cache and
already used at the provider. -/
def UsedAbsent (c : String) (w : World) : Prop :=
  acLookup w.acCache c = none ∧ c ∈ w.usedCodes

/-- Whether an event is a token-endpoint exchange request. -/
def isTokenExchange : Event → Bool
  | .tokenExchangeRequest _ => true
  | _ => false

/-- Whether an event is a successful deletion of the nonce `n`. -/
def isNonceDelete (n : String) : Event → Bool
  | .nonceDelete m => m == n
  | _ => false

/-- Number of token-endpoint exchange requests in an event list. -/
def countTokenExchange (evs : List Event) : Nat :=
  evs.countP isTokenExchange

/-- Number of successful deletions of the nonce `n` in an event list. -/
def countNonceDelete (n : String) (evs : List Event) : Nat :=
  evs.countP (isNonceDelete n)

/-- Example userinfo response used in concrete runs. -/
def uiEx : CoreUserInfoClaims := ⟨some "ui@example.com", some "uiname"⟩

/-- Example identity-token payload used in concrete runs. -/
def idtEx : IdTokenPayload := ⟨1000, some "a@example.com", "n1"⟩

/-- Example token-endpoint response used in concrete runs. -/
def trEx : ProviderTokenResponse := ⟨"atok", some "rtok", some idtEx⟩

/-- Example environment whose provider answers every fresh code. -/
def envEx : Env := ⟨.ok ⟨1⟩, fun _ => ⟨some trEx, true, some uiEx⟩⟩

/-- Example environment whose discovery fails. -/
def envFail : Env := ⟨.error "discovery failed", fun _ => ⟨none, false, none⟩⟩

/-- Example world with one stored nonce and nothing cached. -/
def wEmpty : World := ⟨[], ["n1"], none, []⟩

/-- Example cached identity referring to the stored nonce of `wRedeem`. -/
def auEx : AuthenticatedUser := ⟨"n1", none, "atok", "a@example.com", none⟩

/-- Example world where code `codeA` has already been exchanged. -/
def wRedeem : World := ⟨[("codeA", auEx)], ["n1"], none, ["codeA"]⟩

/-- Example world like `wRedeem` but whose nonce record is missing from
the store. -/
def wNoNonce : World := ⟨[("codeA", auEx)], [], none, ["codeA"]⟩

/-- C7: For every decoded basic token payload, the effective not-before
value equals the token's `nbf` claim when present, else its `iat` claim
when present, else the current time at the moment of the call. -/
theorem nbf_effective_resolution (p : BasicTokenPayload) (now : Int) :
    (∀ v, p.nbf = some v → p.nbfEff now = v) ∧
    (∀ v, p.nbf = none → p.iat = some v → p.nbfEff now = v) ∧
    (p.nbf = none → p.iat = none → p.nbfEff now = now) := by
  refine ⟨fun v hv => ?_, fun v hn hi => ?_, fun hn hi => ?_⟩ <;>
    simp [BasicTokenPayload.nbfEff, Option.or, *]

/-- Witness for C7: concrete payloads exercising all three branches. -/
theorem nbf_effective_resolution_witness :
    BasicTokenPayload.nbfEff ⟨some 5, some 7, 100⟩ 99 = 7 ∧
    BasicTokenPayload.nbfEff ⟨some 5, none, 100⟩ 99 = 5 ∧
    BasicTokenPayload.nbfEff ⟨none, none, 100⟩ 99 = 99 :=
  ⟨(nbf_effective_resolution ⟨some 5, some 7, 100⟩ 99).1 7 rfl,
   (nbf_effective_resolution ⟨some 5, none, 100⟩ 99).2.1 5 rfl rfl,
   (nbf_effective_resolution ⟨none, none, 100⟩ 99).2.2 rfl rfl⟩

/-- C4: With SSO enabled, if the key file is present and parseable the
validator is built with the strict policy (RS256 only, issuer pinned to
the authority, audience pinned to the client id, leeway exactly 30,
exp and nbf enforced, signature checked); if the file is absent it
falls back to the insecure policy (signature check disabled, audience
still pinned and checked); if the file is present but un-parseable,
startup panics. -/
theorem prepare_decoding_policy (cfg : Config) (fileContent : Option String)
    (pemParses : String → Bool) (henabled : cfg.sso_enabled = true) :
    (∀ content, fileContent = some content → pemParses content = true →
      ∃ d, prepare_decoding cfg fileContent pemParses = .ok d ∧
        d.id_validation =
          { algorithms := [.RS256]
            leeway := 30
            validate_exp := true
            validate_nbf := true
            validate_aud := true
            aud := some [cfg.sso_client_id]
            iss := some [cfg.sso_authority]
            validate_signature := true }) ∧
    (fileContent = none →
      ∃ d, prepare_decoding cfg fileContent pemParses = .ok d ∧
        d.id_validation.validate_signature = false ∧
        d.id_validation.aud = some [cfg.sso_client_id] ∧
        d.id_validation.validate_aud = true) ∧
    (∀ content, fileContent = some content → pemParses content = false →
      ∃ msg, prepare_decoding cfg fileContent pemParses = .panic msg) := by
  refine ⟨fun content hc hp => ?_, fun hc => ?_, fun content hc hp => ?_⟩
  · subst hc
    simp only [prepare_decoding, henabled, hp, if_true]
    exact ⟨_, rfl, rfl⟩
  · subst hc
    simp only [prepare_decoding, henabled, if_true]
    exact ⟨_, rfl, rfl, rfl, rfl⟩
  · subst hc
    simp only [prepare_decoding, henabled, hp, if_true, Bool.false_eq_true, if_false]
    exact ⟨_, rfl⟩

/-- Witness for C4: a concrete configuration exercising the strict,
fallback and panic branches. -/
theorem prepare_decoding_policy_witness :
    (∃ d, prepare_decoding ⟨true, "cid", "auth", []⟩ (some "goodpem") (fun c => c == "goodpem") = .ok d ∧
      d.id_validation =
        { algorithms := [.RS256], leeway := 30, validate_exp := true, validate_nbf := true,
          validate_aud := true, aud := some ["cid"], iss := some ["auth"],
          validate_signature := true }) ∧
    (∃ d, prepare_decoding ⟨true, "cid", "auth", []⟩ none (fun c => c == "goodpem") = .ok d ∧
      d.id_validation.validate_signature = false ∧
      d.id_validation.aud = some ["cid"] ∧
      d.id_validation.validate_aud = true) ∧
    (∃ msg, prepare_decoding ⟨true, "cid", "auth", []⟩ (some "badpem") (fun c => c == "goodpem") = .panic msg) :=
  ⟨(prepare_decoding_policy ⟨true, "cid", "auth", []⟩ (some "goodpem") (fun c => c == "goodpem") rfl).1
      "goodpem" rfl (by decide),
   (prepare_decoding_policy ⟨true, "cid", "auth", []⟩ none (fun c => c == "goodpem") rfl).2.1 rfl,
   (prepare_decoding_policy ⟨true, "cid", "auth", []⟩ (some "badpem") (fun c => c == "goodpem") rfl).2.2
      "badpem" rfl (by decide)⟩

/-- C2: `redeem` returns the full authenticated identity if and only if
the code is present in the authorization-code cache, the nonce stored
in the cached identity is found in the nonce store, and its deletion
succeeds; otherwise it returns an error. -/
theorem redeem_success_iff (w : World) (code : String) (deleteOk : Bool)
    (au : AuthenticatedUser) :
    (redeem code deleteOk w).result = .ok au ↔
      (acLookup w.acCache code = some au ∧ au.nonce ∈ w.nonceStore ∧ deleteOk = true) := by
  cases hl : acLookup w.acCache code with
  | none => simp [redeem, hl]
  | some au0 =>
    by_cases hn : au0.nonce ∈ w.nonceStore
    · cases deleteOk with
      | false => simp [redeem, hl, hn]
      | true =>
        simp only [redeem, hl, hn, if_true, if_pos]
        constructor
        · intro h
          cases h
          exact ⟨rfl, hn, trivial⟩
        · intro ⟨h1, _, _⟩
          cases h1
          rfl
    · simp only [redeem, hl, hn, if_false, if_neg, Bool.false_eq_true]
      constructor
      · intro h
        cases h
      · intro ⟨h1, h2, _⟩
        cases h1
        exact absurd h2 hn

/-- C9: `cached_client` returns the discovery error and leaves the
cache unpopulated when discovery fails (so a later call attempts
discovery again); on success the client is cached; with a populated
cache it returns the cached client without contacting the provider. -/
theorem cached_client_memoizes (env : Env) (w : World) :
    (∀ e, w.clientCache = none → env.discovery = .error e →
      cached_client env w = ⟨.error e, w, [.discoveryRequest]⟩) ∧
    (∀ client, w.clientCache = none → env.discovery = .ok client →
      cached_client env w =
        ⟨.ok client, { w with clientCache := some client }, [.discoveryRequest]⟩) ∧
    (∀ client, w.clientCache = some client →
      cached_client env w = ⟨.ok client, w, []⟩) := by
  refine ⟨fun e hc hd => ?_, fun client hc hd => ?_, fun client hc => ?_⟩
  · simp [cached_client, hc, hd]
  · simp [cached_client, hc, hd]
  · simp [cached_client, hc]

/-- Witness for C2: a concrete world where redemption succeeds. -/
theorem redeem_success_iff_witness :
    (redeem "codeA" true wRedeem).result = .ok auEx :=
  (redeem_success_iff wRedeem "codeA" true auEx).mpr ⟨by decide, by decide, rfl⟩

/-- Witness for C9: a failed discovery leaves the cache unpopulated, a
successful one populates it, and a populated cache is returned as is. -/
theorem cached_client_memoizes_witness :
    cached_client envFail wEmpty = ⟨.error "discovery failed", wEmpty, [.discoveryRequest]⟩ ∧
    cached_client envEx wEmpty =
      ⟨.ok ⟨1⟩, { wEmpty with clientCache := some ⟨1⟩ }, [.discoveryRequest]⟩ ∧
    cached_client envEx { wEmpty with clientCache := some ⟨1⟩ } =
      ⟨.ok ⟨1⟩, { wEmpty with clientCache := some ⟨1⟩ }, []⟩ :=
  ⟨(cached_client_memoizes envFail wEmpty).1 "discovery failed" rfl rfl,
   (cached_client_memoizes envEx wEmpty).2.1 ⟨1⟩ rfl rfl,
   (cached_client_memoizes envEx { wEmpty with clientCache := some ⟨1⟩ }).2.2 ⟨1⟩ rfl⟩

/-- `cached_client` changes neither the code cache, nor the nonce
store, nor the set of consumed codes. -/
theorem cached_client_preserves (env : Env) (w : World) :
    (cached_client env w).world.acCache = w.acCache ∧
    (cached_client env w).world.nonceStore = w.nonceStore ∧
    (cached_client env w).world.usedCodes = w.usedCodes := by
  unfold cached_client
  cases w.clientCache with
  | some client => exact ⟨rfl, rfl, rfl⟩
  | none =>
    cases env.discovery with
    | error e => exact ⟨rfl, rfl, rfl⟩
    | ok client => exact ⟨rfl, rfl, rfl⟩

/-- `cached_client` performs no token-exchange request. -/
theorem cached_client_no_token_event (env : Env) (w : World) :
    countTokenExchange (cached_client env w).events = 0 := by
  unfold cached_client
  cases w.clientCache with
  | some client => rfl
  | none =>
    cases env.discovery with
    | error e => rfl
    | ok client => rfl

/-- A single `exchange_code` call performs at most one token-exchange
request. -/
theorem exchange_code_token_le_one (env : Env) (c : String) (w : World) :
    countTokenExchange (exchange_code env c w).events ≤ 1 := by
  unfold exchange_code
  split
  · exact Nat.zero_le 1
  · split
    next e w1 evs heq =>
      have h0 : countTokenExchange evs = 0 := by
        have := cached_client_no_token_event env w
        rw [heq] at this
        exact this
      show countTokenExchange evs ≤ 1
      omega
    next client w1 evs heq =>
      have h0 : countTokenExchange evs = 0 := by
        have := cached_client_no_token_event env w
        rw [heq] at this
        exact this
      have h1 : countTokenExchange (evs ++ [Event.tokenExchangeRequest c]) = 1 := by
        unfold countTokenExchange at h0 ⊢
        rw [List.countP_append, h0]
        simp [List.countP_cons, isTokenExchange]
      have h2 : countTokenExchange
          (evs ++ [Event.tokenExchangeRequest c] ++ [Event.userinfoRequest]) = 1 := by
        unfold countTokenExchange at h0 ⊢
        rw [List.countP_append, List.countP_append, h0]
        simp [List.countP_cons, isTokenExchange]
      have hA : countTokenExchange (evs ++ [Event.tokenExchangeRequest c]) ≤ 1 :=
        Nat.le_of_eq h1
      have hB : countTokenExchange
          (evs ++ [Event.tokenExchangeRequest c] ++ [Event.userinfoRequest]) ≤ 1 :=
        Nat.le_of_eq h2
      split
      · exact hA
      · split
        · exact hA
        · split
          · exact hA
          · split
            · exact hB
            · split
              · exact hB
              · split
                · exact hB
                · exact hB

/-- After any `exchange_code` call, either the call failed and the code
is (still) absent from the cache, or it returned exactly the public
subset of the identity now cached under the code. -/
theorem exchange_code_post (env : Env) (c : String) (w : World) :
    (∃ msg, (exchange_code env c w).result = .error msg ∧
      acLookup (exchange_code env c w).world.acCache c = none) ∨
    (∃ au, (exchange_code env c w).result = .ok ⟨au.email, au.user_name⟩ ∧
      acLookup (exchange_code env c w).world.acCache c = some au) := by
  unfold exchange_code
  split
  next au heq => exact Or.inr ⟨au, rfl, heq⟩
  next heq =>
    split
    next e w1 evs hcc =>
      have hw1 : w1.acCache = w.acCache := by
        have := (cached_client_preserves env w).1
        rw [hcc] at this
        exact this
      exact Or.inl ⟨e, rfl, hw1 ▸ heq⟩
    next client w1 evs hcc =>
      have hw1 : w1.acCache = w.acCache := by
        have := (cached_client_preserves env w).1
        rw [hcc] at this
        exact this
      have habs : acLookup w1.acCache c = none := hw1 ▸ heq
      split
      · exact Or.inl ⟨_, rfl, habs⟩
      · split
        · exact Or.inl ⟨_, rfl, habs⟩
        next tr htr =>
          split
          · exact Or.inl ⟨_, rfl, habs⟩
          · split
            · exact Or.inl ⟨_, rfl, habs⟩
            next ui hui =>
              split
              · exact Or.inl ⟨_, rfl, habs⟩
              next idt hid =>
                split
                · exact Or.inl ⟨_, rfl, habs⟩
                next em hem =>
                  refine Or.inr ⟨⟨idt.nonce, tr.refresh_token, tr.access_token, em,
                    ui.preferred_username⟩, by rfl, by simp [acLookup]⟩

/-- If the code is cached after an `exchange_code` call, the call
returned the public subset of that cached identity. -/
theorem exchange_result_of_cached (env : Env) (c : String) (w : World)
    (au : AuthenticatedUser)
    (hau : acLookup (exchange_code env c w).world.acCache c = some au) :
    (exchange_code env c w).result = .ok ⟨au.email, au.user_name⟩ := by
  rcases exchange_code_post env c w with ⟨msg, _, hnone⟩ | ⟨au1, hres, hsome⟩
  · rw [hau] at hnone
    cases hnone
  · rw [hau] at hsome
    cases hsome
    exact hres

/-- A cache hit returns the cached public subset immediately, with no
provider contact and no state change. -/
theorem exchange_code_hit (env : Env) (c : String) (w : World)
    (au : AuthenticatedUser) (hau : acLookup w.acCache c = some au) :
    exchange_code env c w = ⟨.ok ⟨au.email, au.user_name⟩, w, []⟩ := by
  unfold exchange_code
  rw [hau]

/-- C3: If the code is already cached, `exchange_code` contacts no
provider endpoint and immediately returns the cached identity's public
subset; hence two sequential calls (the entry not evicted in between,
i.e. still cached after the first call) perform at most one provider
token-exchange request and the second call returns `UserInformation`
identical to the first. -/
theorem exchange_code_idempotent (env : Env) (c : String) (w : World) :
    (∀ au, acLookup w.acCache c = some au →
      exchange_code env c w = ⟨.ok ⟨au.email, au.user_name⟩, w, []⟩) ∧
    (∀ au, acLookup (exchange_code env c w).world.acCache c = some au →
      (exchange_code env c w).result = .ok ⟨au.email, au.user_name⟩ ∧
      (exchange_code env c (exchange_code env c w).world).result =
        (exchange_code env c w).result ∧
      (exchange_code env c (exchange_code env c w).world).events = [] ∧
      countTokenExchange ((exchange_code env c w).events ++
        (exchange_code env c (exchange_code env c w).world).events) ≤ 1) := by
  refine ⟨fun au hau => exchange_code_hit env c w au hau, fun au hau => ?_⟩
  have h1 := exchange_result_of_cached env c w au hau
  have h2 := exchange_code_hit env c (exchange_code env c w).world au hau
  refine ⟨h1, ?_, ?_, ?_⟩
  · rw [h2, h1]
  · rw [h2]
  · rw [h2]
    have h3 : countTokenExchange ((exchange_code env c w).events ++ ([] : List Event)) =
        countTokenExchange (exchange_code env c w).events := by
      simp [countTokenExchange]
    rw [h3]
    exact exchange_code_token_le_one env c w

/-- Witness for C3: a concrete miss-then-hit pair of calls on a fresh
world; the second call is served from the cache. -/
theorem exchange_code_idempotent_witness :
    (exchange_code envEx "codeA" wEmpty).result = .ok ⟨"a@example.com", some "uiname"⟩ ∧
    (exchange_code envEx "codeA" (exchange_code envEx "codeA" wEmpty).world).result =
      (exchange_code envEx "codeA" wEmpty).result ∧
    (exchange_code envEx "codeA" (exchange_code envEx "codeA" wEmpty).world).events = [] ∧
    countTokenExchange ((exchange_code envEx "codeA" wEmpty).events ++
      (exchange_code envEx "codeA" (exchange_code envEx "codeA" wEmpty).world).events) ≤ 1 :=
  (exchange_code_idempotent envEx "codeA" wEmpty).2
    ⟨"n1", some "rtok", "atok", "a@example.com", some "uiname"⟩ (by decide)

/-- C8: On a cache miss with a successful token exchange, userinfo
fetch and identity-token decode, the email of the resulting (returned
and cached) identity is the identity token's email claim when present,
otherwise the userinfo email; if neither carries an email,
`exchange_code` errors and caches nothing. -/
theorem exchange_code_email_priority (env : Env) (c : String) (w : World)
    (tr : ProviderTokenResponse) (ui : CoreUserInfoClaims) (idt : IdTokenPayload)
    (hmiss : acLookup w.acCache c = none)
    (hclient : ∃ client, (cached_client env w).result = .ok client)
    (hfresh : c ∉ w.usedCodes)
    (htr : (env.provider c).token_response = some tr)
    (hep : (env.provider c).user_info_endpoint = true)
    (hui : (env.provider c).userinfo = some ui)
    (hid : tr.id_token = some idt) :
    (∀ e, idt.email = some e →
      (exchange_code env c w).result = .ok ⟨e, ui.preferred_username⟩ ∧
      acLookup (exchange_code env c w).world.acCache c =
        some ⟨idt.nonce, tr.refresh_token, tr.access_token, e, ui.preferred_username⟩) ∧
    (idt.email = none → ∀ e, ui.email = some e →
      (exchange_code env c w).result = .ok ⟨e, ui.preferred_username⟩ ∧
      acLookup (exchange_code env c w).world.acCache c =
        some ⟨idt.nonce, tr.refresh_token, tr.access_token, e, ui.preferred_username⟩) ∧
    (idt.email = none → ui.email = none →
      (∃ msg, (exchange_code env c w).result = .error msg) ∧
      (exchange_code env c w).world.acCache = w.acCache) := by
  obtain ⟨client, hcl⟩ := hclient
  rcases hcc : cached_client env w with ⟨res, w1, evs⟩
  have hres : res = Except.ok client := by
    have h := hcl
    rw [hcc] at h
    exact h
  subst hres
  have hpre := cached_client_preserves env w
  rw [hcc] at hpre
  obtain ⟨hac, hns, hus⟩ := hpre
  have hfresh1 : c ∉ w1.usedCodes := hus ▸ hfresh
  refine ⟨fun e he => ?_, fun hn e he => ?_, fun hn hun => ?_⟩
  · have hrme : resolve_email idt ui = some e := by simp [resolve_email, he]
    constructor
    · simp [exchange_code, hmiss, hcc, hfresh1, htr, hep, hui, hid, hrme]
    · simp [exchange_code, hmiss, hcc, hfresh1, htr, hep, hui, hid, hrme, acLookup]
  · have hrme : resolve_email idt ui = some e := by simp [resolve_email, hn, he]
    constructor
    · simp [exchange_code, hmiss, hcc, hfresh1, htr, hep, hui, hid, hrme]
    · simp [exchange_code, hmiss, hcc, hfresh1, htr, hep, hui, hid, hrme, acLookup]
  · have hrme : resolve_email idt ui = none := by simp [resolve_email, hn, hun]
    have hac2 : w1.acCache = w.acCache := hac
    constructor
    · exact ⟨"Neither id token nor userinfo contained an email",
        by simp [exchange_code, hmiss, hcc, hfresh1, htr, hep, hui, hid, hrme]⟩
    · simp [exchange_code, hmiss, hcc, hfresh1, htr, hep, hui, hid, hrme, hac2]

/-- Witness for C8: a concrete exchange where the identity token
carries the email; the returned and cached email is that claim. -/
theorem exchange_code_email_priority_witness :
    (exchange_code envEx "codeA" wEmpty).result = .ok ⟨"a@example.com", some "uiname"⟩ ∧
    acLookup (exchange_code envEx "codeA" wEmpty).world.acCache "codeA" =
      some ⟨"n1", some "rtok", "atok", "a@example.com", some "uiname"⟩ :=
  (exchange_code_email_priority envEx "codeA" wEmpty trEx uiEx idtEx rfl ⟨⟨1⟩, rfl⟩
    (by decide) rfl rfl rfl rfl).1 "a@example.com" rfl

/-- Looking up a different key skips a cache entry. -/
theorem acLookup_cons_ne (k c : String) (v : AuthenticatedUser)
    (l : List (String × AuthenticatedUser)) (h : ¬ k = c) :
    acLookup ((k, v) :: l) c = acLookup l c := by
  simp [acLookup, h]

/-- A key with a cached entry is among the cache's keys. -/
theorem acLookup_some_mem_keys (l : List (String × AuthenticatedUser)) (c : String)
    (v : AuthenticatedUser) (h : acLookup l c = some v) : c ∈ l.map Prod.fst := by
  induction l with
  | nil => simp [acLookup] at h
  | cons p rest ih =>
    obtain ⟨k, v2⟩ := p
    by_cases hk : k = c
    · subst hk
      simp
    · rw [acLookup_cons_ne k c v2 rest hk] at h
      simpa using Or.inr (ih h)

/-- Invalidation removes the key. -/
theorem acLookup_acRemove_self (l : List (String × AuthenticatedUser)) (c : String) :
    acLookup (acRemove l c) c = none := by
  induction l with
  | nil => rfl
  | cons p rest ih =>
    obtain ⟨k, v⟩ := p
    by_cases hk : k = c
    · simpa [acRemove, hk] using ih
    · simpa [acRemove, hk, acLookup] using ih

/-- Invalidation introduces no key that was absent. -/
theorem acLookup_acRemove_none (l : List (String × AuthenticatedUser)) (c c2 : String)
    (h : acLookup l c = none) : acLookup (acRemove l c2) c = none := by
  induction l with
  | nil => rfl
  | cons p rest ih =>
    obtain ⟨k, v⟩ := p
    by_cases hk : k = c
    · subst hk
      simp [acLookup] at h
    · rw [acLookup_cons_ne k c v rest hk] at h
      by_cases hk2 : k = c2
      · simpa [acRemove, hk2] using ih h
      · simpa [acRemove, hk2, acLookup, hk] using ih h

/-- `cached_client` deletes no nonce. -/
theorem cached_client_no_delete (env : Env) (w : World) (n : String) :
    countNonceDelete n (cached_client env w).events = 0 := by
  unfold cached_client
  cases w.clientCache with
  | some client => rfl
  | none =>
    cases env.discovery with
    | error e => rfl
    | ok client => rfl

/-- Effect summary of one `redeem` call on the world: the used-code set
is untouched, the code cache is unchanged or loses the code, and the
nonce store is either untouched (with no delete event) or loses exactly
one stored nonce (with exactly that delete event). -/
theorem redeem_effects (c : String) (deleteOk : Bool) (w : World) :
    (redeem c deleteOk w).world.usedCodes = w.usedCodes ∧
    ((redeem c deleteOk w).world.acCache = w.acCache ∨
     (redeem c deleteOk w).world.acCache = acRemove w.acCache c) ∧
    (((redeem c deleteOk w).world.nonceStore = w.nonceStore ∧
      (redeem c deleteOk w).events = []) ∨
     (∃ m, m ∈ w.nonceStore ∧
       (redeem c deleteOk w).world.nonceStore = w.nonceStore.erase m ∧
       (redeem c deleteOk w).events = [Event.nonceDelete m])) := by
  unfold redeem
  split
  · exact ⟨rfl, Or.inl rfl, Or.inl ⟨rfl, rfl⟩⟩
  next au heq =>
    split
    next hmem =>
      split
      next hok => exact ⟨rfl, Or.inr rfl, Or.inr ⟨au.nonce, hmem, rfl, rfl⟩⟩
      next hok => exact ⟨rfl, Or.inr rfl, Or.inl ⟨rfl, rfl⟩⟩
    next hmem => exact ⟨rfl, Or.inr rfl, Or.inl ⟨rfl, rfl⟩⟩

/-- A `redeem` on a code absent from the cache fails with the cache
not-found error and changes nothing. -/
theorem redeem_fails_of_absent (w : World) (c : String) (deleteOk : Bool)
    (h : acLookup w.acCache c = none) :
    (redeem c deleteOk w).result = .error "Failed to retrieve user info from sso cache" ∧
    (redeem c deleteOk w).world = w := by
  unfold redeem
  simp [h]

/-- Elimination for a successful `redeem`: the code was cached, the
nonce was stored, the delete succeeded, and the new world has the code
invalidated and the nonce erased, with exactly one delete event. -/
theorem redeem_ok_elim (w : World) (c : String) (deleteOk : Bool)
    (au : AuthenticatedUser) (h : (redeem c deleteOk w).result = .ok au) :
    acLookup w.acCache c = some au ∧ au.nonce ∈ w.nonceStore ∧ deleteOk = true ∧
    (redeem c deleteOk w).world.acCache = acRemove w.acCache c ∧
    (redeem c deleteOk w).world.nonceStore = w.nonceStore.erase au.nonce ∧
    (redeem c deleteOk w).world.usedCodes = w.usedCodes ∧
    (redeem c deleteOk w).events = [Event.nonceDelete au.nonce] := by
  cases hl : acLookup w.acCache c with
  | none =>
    rw [(redeem_fails_of_absent w c deleteOk hl).1] at h
    simp at h
  | some au0 =>
    by_cases hm : au0.nonce ∈ w.nonceStore
    · cases deleteOk with
      | true =>
        have hred : redeem c true w =
            ⟨.ok au0,
              { w with acCache := acRemove w.acCache c,
                       nonceStore := w.nonceStore.erase au0.nonce },
              [Event.nonceDelete au0.nonce]⟩ := by
          simp [redeem, hl, hm]
        rw [hred] at h
        simp only [Except.ok.injEq] at h
        subst h
        exact ⟨rfl, hm, rfl, by rw [hred], by rw [hred], by rw [hred], by rw [hred]⟩
      | false =>
        have hred : (redeem c false w).result = .error "Failed to delete nonce" := by
          simp [redeem, hl, hm]
        rw [hred] at h
        simp at h
    · have hred : (redeem c deleteOk w).result = .error "Failed to retrive nonce from db" := by
        simp [redeem, hl, hm]
      rw [hred] at h
      simp at h

/-- A `redeem` that finds the code but then fails (nonce missing or
delete refused) still invalidates the cache entry and leaves the nonce
store unchanged. -/
theorem redeem_found_fail_elim (w : World) (c : String) (deleteOk : Bool)
    (au : AuthenticatedUser) (hl : acLookup w.acCache c = some au)
    (hfail : au.nonce ∉ w.nonceStore ∨ deleteOk = false) :
    (∃ msg, (redeem c deleteOk w).result = .error msg) ∧
    (redeem c deleteOk w).world = { w with acCache := acRemove w.acCache c } := by
  unfold redeem
  simp only [hl]
  rcases hfail with hnm | hok
  · rw [if_neg hnm]
    exact ⟨⟨_, rfl⟩, rfl⟩
  · subst hok
    by_cases hm : au.nonce ∈ w.nonceStore
    · rw [if_pos hm]
      simp only [Bool.false_eq_true, if_false]
      exact ⟨⟨_, rfl⟩, trivial⟩
    · rw [if_neg hm]
      exact ⟨⟨_, rfl⟩, rfl⟩

/-- Effect summary of one `exchange_code` call on the world: the nonce
store is untouched and no nonce is deleted; the code cache and used-code
set are unchanged (up to marking the code used), except that a fully
successful fresh exchange caches one identity under the code — and that
can only happen for a code not yet used at the provider. -/
theorem exchange_code_effects (env : Env) (c : String) (w : World) :
    (exchange_code env c w).world.nonceStore = w.nonceStore ∧
    (∀ n, countNonceDelete n (exchange_code env c w).events = 0) ∧
    (((exchange_code env c w).world.acCache = w.acCache ∧
      ((exchange_code env c w).world.usedCodes = w.usedCodes ∨
       (exchange_code env c w).world.usedCodes = c :: w.usedCodes)) ∨
     (∃ au, c ∉ w.usedCodes ∧
       (exchange_code env c w).world.acCache = (c, au) :: w.acCache ∧
       (exchange_code env c w).world.usedCodes = c :: w.usedCodes)) := by
  unfold exchange_code
  split
  next au heq => exact ⟨rfl, fun n => rfl, Or.inl ⟨rfl, Or.inl rfl⟩⟩
  next heq =>
    split
    next e w1 evs hcc =>
      have hpre := cached_client_preserves env w
      rw [hcc] at hpre
      have hdel : ∀ n, countNonceDelete n evs = 0 := by
        intro n
        have hd := cached_client_no_delete env w n
        rw [hcc] at hd
        exact hd
      exact ⟨hpre.2.1, hdel, Or.inl ⟨hpre.1, Or.inl hpre.2.2⟩⟩
    next client w1 evs hcc =>
      have hpre := cached_client_preserves env w
      rw [hcc] at hpre
      have hac1 : w1.acCache = w.acCache := hpre.1
      have hns1 : w1.nonceStore = w.nonceStore := hpre.2.1
      have hus1 : w1.usedCodes = w.usedCodes := hpre.2.2
      have hdel0 : ∀ n, countNonceDelete n evs = 0 := by
        intro n
        have hd := cached_client_no_delete env w n
        rw [hcc] at hd
        exact hd
      have hdel1 : ∀ n, countNonceDelete n (evs ++ [Event.tokenExchangeRequest c]) = 0 := by
        intro n
        unfold countNonceDelete at hdel0 ⊢
        rw [List.countP_append, hdel0 n]
        simp [List.countP_cons, isNonceDelete]
      have hdel2 : ∀ n, countNonceDelete n
          (evs ++ [Event.tokenExchangeRequest c] ++ [Event.userinfoRequest]) = 0 := by
        intro n
        unfold countNonceDelete at hdel1 ⊢
        rw [List.countP_append, hdel1 n]
        simp [List.countP_cons, isNonceDelete]
      have hcons : c :: w1.usedCodes = c :: w.usedCodes := by rw [hus1]
      split
      next hused => exact ⟨hns1, hdel1, Or.inl ⟨hac1, Or.inl hus1⟩⟩
      next hused =>
        have hfr : c ∉ w.usedCodes := hus1 ▸ hused
        split
        · exact ⟨hns1, hdel1, Or.inl ⟨hac1, Or.inl hus1⟩⟩
        next tr htr =>
          split
          next hep => exact ⟨hns1, hdel1, Or.inl ⟨hac1, Or.inr hcons⟩⟩
          next hep =>
            split
            · exact ⟨hns1, hdel2, Or.inl ⟨hac1, Or.inr hcons⟩⟩
            next ui hui =>
              split
              · exact ⟨hns1, hdel2, Or.inl ⟨hac1, Or.inr hcons⟩⟩
              next idt hid =>
                split
                · exact ⟨hns1, hdel2, Or.inl ⟨hac1, Or.inr hcons⟩⟩
                next em hem =>
                  refine ⟨hns1, hdel2, Or.inr ⟨⟨idt.nonce, tr.refresh_token,
                    tr.access_token, em, ui.preferred_username⟩, hfr, ?_, hcons⟩⟩
                  show ((c, (⟨idt.nonce, tr.refresh_token, tr.access_token, em,
                      ui.preferred_username⟩ : AuthenticatedUser)) :: w1.acCache :
                      List (String × AuthenticatedUser)) =
                    (c, ⟨idt.nonce, tr.refresh_token, tr.access_token, em,
                      ui.preferred_username⟩) :: w.acCache
                  rw [hac1]

/-- A consumed code stays absent from the cache and used at the
provider across any single operation. -/
theorem step_usedAbsent (env : Env) (c : String) (w : World) (op : Op)
    (h : UsedAbsent c w) : UsedAbsent c (step env w op).1 := by
  cases op with
  | exchange c2 =>
    rcases exchange_code_effects env c2 w with ⟨-, -, ⟨hac, hus⟩ | ⟨au, hfr, hac, hus⟩⟩
    · constructor
      · show acLookup (exchange_code env c2 w).world.acCache c = none
        rw [hac]
        exact h.1
      · show c ∈ (exchange_code env c2 w).world.usedCodes
        rcases hus with hus | hus
        · rw [hus]; exact h.2
        · rw [hus]; exact List.mem_cons_of_mem _ h.2
    · by_cases hc : c2 = c
      · subst hc
        exact absurd h.2 hfr
      · constructor
        · show acLookup (exchange_code env c2 w).world.acCache c = none
          rw [hac, acLookup_cons_ne c2 c au _ hc]
          exact h.1
        · show c ∈ (exchange_code env c2 w).world.usedCodes
          rw [hus]
          exact List.mem_cons_of_mem _ h.2
  | redeem c2 dOk =>
    rcases redeem_effects c2 dOk w with ⟨hus, hac, -⟩
    constructor
    · show acLookup (redeem c2 dOk w).world.acCache c = none
      rcases hac with hac | hac
      · rw [hac]; exact h.1
      · rw [hac]; exact acLookup_acRemove_none _ c c2 h.1
    · show c ∈ (redeem c2 dOk w).world.usedCodes
      rw [hus]
      exact h.2

/-- A consumed code stays absent from the cache and used at the
provider across any sequence of operations. -/
theorem run_usedAbsent (env : Env) (c : String) (ops : List Op) :
    ∀ w : World, UsedAbsent c w → UsedAbsent c (run env w ops).1 := by
  induction ops with
  | nil => exact fun w h => h
  | cons op ops ih => exact fun w h => ih _ (step_usedAbsent env c w op h)

/-- A nonce absent from the store stays absent and is never deleted by
a single operation. -/
theorem step_nonce_absent (env : Env) (w : World) (op : Op) (n : String)
    (h : n ∉ w.nonceStore) :
    n ∉ (step env w op).1.nonceStore ∧ countNonceDelete n (step env w op).2 = 0 := by
  cases op with
  | exchange c2 =>
    rcases exchange_code_effects env c2 w with ⟨hns, hdel, -⟩
    constructor
    · show n ∉ (exchange_code env c2 w).world.nonceStore
      rw [hns]
      exact h
    · exact hdel n
  | redeem c2 dOk =>
    rcases redeem_effects c2 dOk w with ⟨-, -, ⟨hns, hev⟩ | ⟨m, hm, hns, hev⟩⟩
    · constructor
      · show n ∉ (redeem c2 dOk w).world.nonceStore
        rw [hns]
        exact h
      · show countNonceDelete n (redeem c2 dOk w).events = 0
        rw [hev]
        rfl
    · have hmn : ¬ m = n := fun he => h (he ▸ hm)
      have hb : (m == n) = false := beq_eq_false_iff_ne.mpr hmn
      constructor
      · show n ∉ (redeem c2 dOk w).world.nonceStore
        rw [hns]
        exact fun hx => h (List.mem_of_mem_erase hx)
      · show countNonceDelete n (redeem c2 dOk w).events = 0
        rw [hev]
        simp [countNonceDelete, List.countP_cons, isNonceDelete, hb]

/-- A nonce absent from the store stays absent and is never deleted by
a sequence of operations. -/
theorem run_nonce_absent (env : Env) (n : String) (ops : List Op) :
    ∀ w : World, n ∉ w.nonceStore →
    n ∉ (run env w ops).1.nonceStore ∧ countNonceDelete n (run env w ops).2 = 0 := by
  induction ops with
  | nil => exact fun w h => ⟨h, rfl⟩
  | cons op ops ih =>
    intro w h
    obtain ⟨h1, h2⟩ := step_nonce_absent env w op n h
    obtain ⟨h3, h4⟩ := ih _ h1
    refine ⟨h3, ?_⟩
    show countNonceDelete n ((step env w op).2 ++ (run env (step env w op).1 ops).2) = 0
    unfold countNonceDelete at h2 h4 ⊢
    rw [List.countP_append, h2, h4]

/-- One operation keeps the nonce store duplicate-free and deletes a
given nonce at most once, removing it from the store when it does. -/
theorem step_nodup_bound (env : Env) (w : World) (op : Op) (n : String)
    (hnd : w.nonceStore.Nodup) :
    (step env w op).1.nonceStore.Nodup ∧
    countNonceDelete n (step env w op).2 +
      (if n ∈ (step env w op).1.nonceStore then 1 else 0) ≤
      (if n ∈ w.nonceStore then 1 else 0) := by
  cases op with
  | exchange c2 =>
    rcases exchange_code_effects env c2 w with ⟨hns, hdel, -⟩
    constructor
    · show (exchange_code env c2 w).world.nonceStore.Nodup
      rw [hns]
      exact hnd
    · show countNonceDelete n (exchange_code env c2 w).events +
        (if n ∈ (exchange_code env c2 w).world.nonceStore then 1 else 0) ≤
        (if n ∈ w.nonceStore then 1 else 0)
      rw [hns, hdel n]
      simp
  | redeem c2 dOk =>
    rcases redeem_effects c2 dOk w with ⟨-, -, ⟨hns, hev⟩ | ⟨m, hm, hns, hev⟩⟩
    · constructor
      · show (redeem c2 dOk w).world.nonceStore.Nodup
        rw [hns]
        exact hnd
      · show countNonceDelete n (redeem c2 dOk w).events +
          (if n ∈ (redeem c2 dOk w).world.nonceStore then 1 else 0) ≤
          (if n ∈ w.nonceStore then 1 else 0)
        rw [hns, hev]
        simp [countNonceDelete]
    · constructor
      · show (redeem c2 dOk w).world.nonceStore.Nodup
        rw [hns]
        exact List.Nodup.sublist (List.erase_sublist m _) hnd
      · show countNonceDelete n (redeem c2 dOk w).events +
          (if n ∈ (redeem c2 dOk w).world.nonceStore then 1 else 0) ≤
          (if n ∈ w.nonceStore then 1 else 0)
        rw [hns, hev]
        by_cases hmn : m = n
        · subst hmn
          have h1 : countNonceDelete m [Event.nonceDelete m] = 1 := by
            simp [countNonceDelete, List.countP_cons, isNonceDelete]
          have h2 : m ∉ w.nonceStore.erase m := hnd.not_mem_erase
          rw [h1, if_neg h2, if_pos hm]
        · have hb : (m == n) = false := beq_eq_false_iff_ne.mpr hmn
          have h1 : countNonceDelete n [Event.nonceDelete m] = 0 := by
            simp [countNonceDelete, List.countP_cons, isNonceDelete, hb]
          rw [h1]
          by_cases hn : n ∈ w.nonceStore
          · by_cases hne : n ∈ w.nonceStore.erase m
            · rw [if_pos hne, if_pos hn]
            · rw [if_neg hne, if_pos hn]
              omega
          · have hne : n ∉ w.nonceStore.erase m := fun hx => hn (List.mem_of_mem_erase hx)
            rw [if_neg hne, if_neg hn]

/-- A sequence of operations keeps the nonce store duplicate-free and
deletes a given nonce at most once overall. -/
theorem run_nodup_bound (env : Env) (n : String) (ops : List Op) :
    ∀ w : World, w.nonceStore.Nodup →
    (run env w ops).1.nonceStore.Nodup ∧
    countNonceDelete n (run env w ops).2 +
      (if n ∈ (run env w ops).1.nonceStore then 1 else 0) ≤
      (if n ∈ w.nonceStore then 1 else 0) := by
  induction ops with
  | nil =>
    intro w hnd
    refine ⟨hnd, ?_⟩
    show countNonceDelete n [] + (if n ∈ w.nonceStore then 1 else 0) ≤
      (if n ∈ w.nonceStore then 1 else 0)
    simp [countNonceDelete]
  | cons op ops ih =>
    intro w hnd
    obtain ⟨hnd1, hb1⟩ := step_nodup_bound env w op n hnd
    obtain ⟨hnd2, hb2⟩ := ih _ hnd1
    refine ⟨hnd2, ?_⟩
    show countNonceDelete n ((step env w op).2 ++ (run env (step env w op).1 ops).2) +
      (if n ∈ (run env (step env w op).1 ops).1.nonceStore then 1 else 0) ≤
      (if n ∈ w.nonceStore then 1 else 0)
    unfold countNonceDelete at hb1 hb2 ⊢
    rw [List.countP_append]
    omega

/-- C1: After a successful `redeem(c)`, the nonce record consumed by
that flow was deleted exactly once (one delete event, none in any
later sequence of `exchange_code`/`redeem` calls), every subsequent
`redeem(c)` fails with the cache not-found error, and no sequence of
`exchange_code`/`redeem` calls from a duplicate-free store deletes any
nonce record twice. -/
theorem redeem_consumes_nonce_once (env : Env) (w : World) (c : String)
    (au : AuthenticatedUser) (ops ops2 : List Op) (deleteOk : Bool) (n : String)
    (hnd : w.nonceStore.Nodup)
    (hsub : ∀ k ∈ w.acCache.map Prod.fst, k ∈ w.usedCodes)
    (hred : (redeem c true w).result = .ok au) :
    countNonceDelete au.nonce (redeem c true w).events = 1 ∧
    countNonceDelete au.nonce (run env (redeem c true w).world ops).2 = 0 ∧
    (redeem c deleteOk (run env (redeem c true w).world ops).1).result =
      .error "Failed to retrieve user info from sso cache" ∧
    countNonceDelete n (run env w ops2).2 ≤ 1 := by
  obtain ⟨hl, hm, -, hac, hns, hus, hev⟩ := redeem_ok_elim w c true au hred
  have hn1 : au.nonce ∉ (redeem c true w).world.nonceStore := by
    rw [hns]
    exact hnd.not_mem_erase
  have habs : UsedAbsent c (redeem c true w).world := by
    constructor
    · rw [hac]
      exact acLookup_acRemove_self _ _
    · rw [hus]
      exact hsub c (acLookup_some_mem_keys _ _ _ hl)
  refine ⟨?_, ?_, ?_, ?_⟩
  · rw [hev]
    simp [countNonceDelete, List.countP_cons, isNonceDelete]
  · exact (run_nonce_absent env au.nonce ops _ hn1).2
  · exact (redeem_fails_of_absent _ c deleteOk (run_usedAbsent env c ops _ habs).1).1
  · have hb := (run_nodup_bound env n ops2 w hnd).2
    by_cases hn : n ∈ w.nonceStore
    · rw [if_pos hn] at hb
      omega
    · rw [if_neg hn] at hb
      omega

/-- Witness for C1: a concrete successful redemption, followed by a
re-exchange attempt of the same code (rejected: the code is single-use)
and a failing second redemption; and a double-redeem sequence deleting
the stored nonce at most once. -/
theorem redeem_consumes_nonce_once_witness :
    countNonceDelete "n1" (redeem "codeA" true wRedeem).events = 1 ∧
    countNonceDelete "n1" (run envEx (redeem "codeA" true wRedeem).world
      [Op.exchange "codeA"]).2 = 0 ∧
    (redeem "codeA" true (run envEx (redeem "codeA" true wRedeem).world
      [Op.exchange "codeA"]).1).result =
      .error "Failed to retrieve user info from sso cache" ∧
    countNonceDelete "n1" (run envEx wRedeem
      [Op.redeem "codeA" true, Op.redeem "codeA" true]).2 ≤ 1 :=
  redeem_consumes_nonce_once envEx wRedeem "codeA" auEx [Op.exchange "codeA"]
    [Op.redeem "codeA" true, Op.redeem "codeA" true] true "n1"
    (by decide) (by decide) (by rfl)

/-- C10: `redeem` is not atomic on error: on a cache hit whose nonce
lookup or deletion then fails, the call errors but the cache entry is
already invalidated, so after any further sequence of calls the code is
still missing from the cache (every later `exchange_code(c)` misses)
and every later `redeem(c)` fails with the cache not-found error. -/
theorem redeem_invalidates_before_nonce (env : Env) (w : World) (c : String)
    (au : AuthenticatedUser) (ops : List Op) (deleteOk deleteOk2 : Bool)
    (hsub : ∀ k ∈ w.acCache.map Prod.fst, k ∈ w.usedCodes)
    (hl : acLookup w.acCache c = some au)
    (hfail : au.nonce ∉ w.nonceStore ∨ deleteOk = false) :
    (∃ msg, (redeem c deleteOk w).result = .error msg) ∧
    acLookup (redeem c deleteOk w).world.acCache c = none ∧
    acLookup (run env (redeem c deleteOk w).world ops).1.acCache c = none ∧
    (redeem c deleteOk2 (run env (redeem c deleteOk w).world ops).1).result =
      .error "Failed to retrieve user info from sso cache" := by
  obtain ⟨hmsg, hw⟩ := redeem_found_fail_elim w c deleteOk au hl hfail
  have habs : UsedAbsent c (redeem c deleteOk w).world := by
    rw [hw]
    exact ⟨acLookup_acRemove_self _ _, hsub c (acLookup_some_mem_keys _ _ _ hl)⟩
  have hrun := run_usedAbsent env c ops _ habs
  exact ⟨hmsg, habs.1, hrun.1, (redeem_fails_of_absent _ c deleteOk2 hrun.1).1⟩

/-- Witness for C10: the nonce record is missing, so the redemption
fails, yet the entry is gone and stays gone across a later re-exchange
attempt, and redeeming again fails with the cache not-found error. -/
theorem redeem_invalidates_before_nonce_witness :
    (∃ msg, (redeem "codeA" true wNoNonce).result = .error msg) ∧
    acLookup (redeem "codeA" true wNoNonce).world.acCache "codeA" = none ∧
    acLookup (run envEx (redeem "codeA" true wNoNonce).world
      [Op.exchange "codeA"]).1.acCache "codeA" = none ∧
    (redeem "codeA" true (run envEx (redeem "codeA" true wNoNonce).world
      [Op.exchange "codeA"]).1).result =
      .error "Failed to retrieve user info from sso cache" :=
  redeem_invalidates_before_nonce envEx wNoNonce "codeA" auEx [Op.exchange "codeA"]
    true true (by decide) (by rfl) (Or.inl (by decide))

/-- C6: `create_auth_tokens` returns an error exactly when the access
token fails to decode under the basic policy; a present but
undecodable refresh token string does not fail the operation, and the
resulting refresh claims carry the synthetic validity window
`[now, now + default refresh validity]`. -/
theorem create_auth_tokens_error_iff
    (decode_basic : String → Except String BasicTokenPayload)
    (now drv : Int) (device : Device) (user : User)
    (rt : Option String) (atk : String) :
    ((∃ e, create_auth_tokens decode_basic now drv device user rt atk = .error e) ↔
      (∃ e, decode_basic atk = .error e)) ∧
    (∀ s e p, rt = some s → decode_basic s = .error e → decode_basic atk = .ok p →
      ∃ tokens rc2,
        create_auth_tokens decode_basic now drv device user rt atk = .ok tokens ∧
        tokens.refresh_claims = some rc2 ∧ rc2.nbf = now ∧ rc2.exp = now + drv) := by
  cases hdec : decode_basic atk with
  | error e0 =>
    have hres : create_auth_tokens decode_basic now drv device user rt atk = .error e0 := by
      simp [create_auth_tokens, hdec]
    refine ⟨⟨fun _ => ⟨e0, rfl⟩, fun _ => ⟨e0, hres⟩⟩, ?_⟩
    intro s e p hs hes hp
    cases hp
  | ok p =>
    constructor
    · constructor
      · intro he
        obtain ⟨e, he⟩ := he
        simp [create_auth_tokens, hdec] at he
      · intro he
        obtain ⟨e, he⟩ := he
        cases he
    · intro s e p2 hs hes hp
      subst hs
      have hres2 : create_auth_tokens decode_basic now drv device user (some s) atk =
          .ok ⟨some ⟨now, now + drv, JWT_LOGIN_ISSUER, AuthMethod.Sso,
            device.refresh_token, some s⟩,
            LoginJwtClaims.new device user (p.nbfEff now) p.exp AuthMethod.Sso.scope_vec⟩ := by
        simp [create_auth_tokens, hdec, hes]
      exact ⟨_, _, hres2, rfl, rfl, rfl⟩

/-- Witness for C6: a decoder that accepts only one access token; an
undecodable access token fails, an undecodable refresh token does not
and yields the synthetic window `[50, 60]`. -/
theorem create_auth_tokens_error_iff_witness :
    (∃ e, create_auth_tokens decodeEx 50 10 devEx usrEx none "badtok" = .error e) ∧
    (∃ tokens rc2,
      create_auth_tokens decodeEx 50 10 devEx usrEx (some "opaque") "goodtok" = .ok tokens ∧
      tokens.refresh_claims = some rc2 ∧ rc2.nbf = 50 ∧ rc2.exp = 50 + 10) :=
  ⟨(create_auth_tokens_error_iff decodeEx 50 10 devEx usrEx none "badtok").1.mpr
      ⟨"bad token", rfl⟩,
   (create_auth_tokens_error_iff decodeEx 50 10 devEx usrEx (some "opaque") "goodtok").2
      "opaque" "bad token" ⟨some 5, some 7, 100⟩ rfl rfl rfl⟩

/-- A successful `create_auth_tokens` with a refresh token present
yields refresh claims carrying exactly that refresh token string. -/
theorem create_auth_tokens_rt_field
    (decode_basic : String → Except String BasicTokenPayload)
    (now drv : Int) (device : Device) (user : User) (s atk : String)
    (tokens : AuthTokens)
    (h : create_auth_tokens decode_basic now drv device user (some s) atk = .ok tokens) :
    ∃ out_rc, tokens.refresh_claims = some out_rc ∧ out_rc.refresh_token = some s := by
  cases hdec : decode_basic atk with
  | error e =>
    rw [show create_auth_tokens decode_basic now drv device user (some s) atk = .error e
      from by simp [create_auth_tokens, hdec]] at h
    cases h
  | ok p =>
    cases hdec2 : decode_basic s with
    | error e2 =>
      have hres : create_auth_tokens decode_basic now drv device user (some s) atk =
          .ok ⟨some ⟨now, now + drv, JWT_LOGIN_ISSUER, AuthMethod.Sso,
            device.refresh_token, some s⟩,
            LoginJwtClaims.new device user (p.nbfEff now) p.exp AuthMethod.Sso.scope_vec⟩ := by
        simp [create_auth_tokens, hdec, hdec2]
      rw [hres] at h
      injection h with h
      subst h
      exact ⟨_, rfl, rfl⟩
    | ok rp =>
      have hres : create_auth_tokens decode_basic now drv device user (some s) atk =
          .ok ⟨some ⟨rp.nbfEff now, rp.exp, JWT_LOGIN_ISSUER, AuthMethod.Sso,
            device.refresh_token, some s⟩,
            LoginJwtClaims.new device user (p.nbfEff now) p.exp AuthMethod.Sso.scope_vec⟩ := by
        simp [create_auth_tokens, hdec, hdec2]
      rw [hres] at h
      injection h with h
      subst h
      exact ⟨_, rfl, rfl⟩

/-- C5: `exchange_refresh_token` fails when the stored claims carry no
provider refresh token; otherwise, on a successful provider response
and token creation, the refresh token in the output claims is the
provider's new refresh token when one is returned, else the original
stored string unchanged. -/
theorem exchange_refresh_token_rotation
    (decode_basic : String → Except String BasicTokenPayload)
    (now drv : Int) (client_result : Except String CoreClient)
    (provider_refresh : String → Except String RefreshTokenResponse)
    (device : Device) (user : User) (rc : RefreshJwtClaims) :
    (rc.refresh_token = none →
      exchange_refresh_token decode_basic now drv client_result provider_refresh
        device user rc =
        .error "Impossible to retrieve new access token, refresh_token is missing") ∧
    (∀ rt tr tokens, rc.refresh_token = some rt →
      provider_refresh rt = .ok tr →
      exchange_refresh_token decode_basic now drv client_result provider_refresh
        device user rc = .ok tokens →
      ∃ out_rc, tokens.refresh_claims = some out_rc ∧
        out_rc.refresh_token = some (tr.refresh_token.getD rt) ∧
        (∀ nt, tr.refresh_token = some nt → out_rc.refresh_token = some nt) ∧
        (tr.refresh_token = none → out_rc.refresh_token = some rt)) := by
  constructor
  · intro hn
    simp [exchange_refresh_token, hn]
  · intro rt tr tokens hrt hpr hok
    cases client_result with
    | error e =>
      rw [show exchange_refresh_token decode_basic now drv (.error e) provider_refresh
          device user rc = .error e from by simp [exchange_refresh_token, hrt]] at hok
      cases hok
    | ok cl =>
      have hstep : exchange_refresh_token decode_basic now drv (.ok cl) provider_refresh
          device user rc =
          create_auth_tokens decode_basic now drv device user
            (some (tr.refresh_token.getD rt)) tr.access_token := by
        simp [exchange_refresh_token, hrt, hpr]
      rw [hstep] at hok
      obtain ⟨out_rc, h1, h2⟩ :=
        create_auth_tokens_rt_field decode_basic now drv device user _ _ tokens hok
      refine ⟨out_rc, h1, h2, fun nt hnt => ?_, fun hnone => ?_⟩
      · rw [hnt] at h2
        exact h2
      · rw [hnone] at h2
        exact h2

/-- Witness for C5: a claims record with no refresh token fails; one
with a stored token, against a provider that does not rotate, yields
output claims carrying the original token string. -/
theorem exchange_refresh_token_rotation_witness :
    exchange_refresh_token decodeEx 50 10 (.ok ⟨1⟩) provRefEx devEx usrEx
      ⟨0, 0, "iss0", .Sso, "devtok", none⟩ =
      .error "Impossible to retrieve new access token, refresh_token is missing" ∧
    ∃ out_rc,
      (AuthTokens.mk
        (some ⟨50, 60, JWT_LOGIN_ISSUER, .Sso, "devtok", some "oldrt"⟩)
        (LoginJwtClaims.new devEx usrEx 7 100 AuthMethod.Sso.scope_vec)).refresh_claims =
        some out_rc ∧
      out_rc.refresh_token =
        some ((⟨"goodtok", none⟩ : RefreshTokenResponse).refresh_token.getD "oldrt") ∧
      (∀ nt, (⟨"goodtok", none⟩ : RefreshTokenResponse).refresh_token = some nt →
        out_rc.refresh_token = some nt) ∧
      ((⟨"goodtok", none⟩ : RefreshTokenResponse).refresh_token = none →
        out_rc.refresh_token = some "oldrt") :=
  ⟨(exchange_refresh_token_rotation decodeEx 50 10 (.ok ⟨1⟩) provRefEx devEx usrEx
      ⟨0, 0, "iss0", .Sso, "devtok", none⟩).1 rfl,
   (exchange_refresh_token_rotation decodeEx 50 10 (.ok ⟨1⟩) provRefEx devEx usrEx
      rcEx).2 "oldrt" ⟨"goodtok", none⟩
      (AuthTokens.mk
        (some ⟨50, 60, JWT_LOGIN_ISSUER, .Sso, "devtok", some "oldrt"⟩)
        (LoginJwtClaims.new devEx usrEx 7 100 AuthMethod.Sso.scope_vec))
      rfl rfl rfl⟩

end VaultwardenSso
